import Mathlib

/-!
Verification of the audio-processing engine of the ATH-R50x-BT firmware
(`lib/AudioProcessing/AudioProcessing.cpp`).  The DSP buffers of the C
implementation are modelled as total functions `ℕ → ℝ` (an index holds the
value last stored there; indices outside a loop bound keep their previous
value), machine integers as `ℕ`/`ℤ` with explicit wrap where the width
matters, and the fallible `processFrame` as an `Option`-returning function.
All floating-point arithmetic is modelled exactly over `ℝ`.
-/

namespace ATH

/-- Constant `AUDIO_FRAME_SIZE` from AudioProcessing.h. -/
def AUDIO_FRAME_SIZE : ℕ := 512

/-- Constant `FFT_SIZE` from AudioProcessing.h. -/
def FFT_SIZE : ℕ := 512

/-- Constant `OVERLAP_SIZE` from AudioProcessing.h. -/
def OVERLAP_SIZE : ℕ := 256

/-- Constant `NUM_FILTERS` from AudioProcessing.h. -/
def NUM_FILTERS : ℕ := 32

/-- Constant `VAD_ENERGY_THRESHOLD` from AudioProcessing.h (0.02f). -/
noncomputable def VAD_ENERGY_THRESHOLD : ℝ := 0.02

/-- Constant `VAD_ZCR_THRESHOLD` from AudioProcessing.h (0.1f). -/
noncomputable def VAD_ZCR_THRESHOLD : ℝ := 0.1

/-- Constant `VAD_HANGOVER_FRAMES` from AudioProcessing.h. -/
def VAD_HANGOVER_FRAMES : ℕ := 5

/-- Constant `VAD_TRIGGER_FRAMES` from AudioProcessing.h. -/
def VAD_TRIGGER_FRAMES : ℕ := 3

/-- Constant `NOISE_FLOOR_ALPHA` from AudioProcessing.h (0.95f). -/
noncomputable def NOISE_FLOOR_ALPHA : ℝ := 0.95

/-- Constant `SPECTRAL_FLOOR` from AudioProcessing.h (0.1f). -/
noncomputable def SPECTRAL_FLOOR : ℝ := 0.1

/-- The all-zero buffer. -/
noncomputable def zeroFn : ℕ → ℝ := fun _ => 0

/-- Exchange the contents of two indices of a buffer
(the three-assignment swap in the bit-reversal loop of `fft`). -/
noncomputable def swapF (f : ℕ → ℝ) (a b : ℕ) : ℕ → ℝ :=
  fun k => if k = a then f b else if k = b then f a else f k

/-- The inner `while (j & bit) { j ^= bit; bit >>= 1; } j ^= bit;` of the
bit-reversal permutation in `AudioProcessor::fft`.  The first argument is a
fuel bound on the iteration count: the loop runs at most `log2 bit + 1`
times (each pass halves `bit`, and `j & 0 = 0` always exits), so any fuel
of at least `bit` reproduces the loop exactly; `fft` passes `size`. -/
def bitrevInner : ℕ → ℕ → ℕ → ℕ
  | 0, j, _ => j
  | f + 1, j, bit => if j &&& bit ≠ 0 then bitrevInner f (j ^^^ bit) (bit / 2)
                     else j ^^^ bit

/-- The bit-reversal loop `for (i = 1; i < size; i++)` of `AudioProcessor::fft`;
the first argument of the recursion is the number of remaining iterations
(`size - i`), `i` and `j` are the loop variables of the source. -/
noncomputable def bitrevGo (size : ℕ) :
    ℕ → ℕ → ℕ → (ℕ → ℝ) → (ℕ → ℝ) → (ℕ → ℝ) × (ℕ → ℝ)
  | 0, _, _, re, im => (re, im)
  | c + 1, i, j, re, im =>
    let j' := bitrevInner size j (size / 2)
    if i < j' then bitrevGo size c (i + 1) j' (swapF re i j') (swapF im i j')
    else bitrevGo size c (i + 1) j' re im

/-- Bit-reversal permutation phase of `AudioProcessor::fft`. -/
noncomputable def bitrevPermute (re im : ℕ → ℝ) (size : ℕ) :
    (ℕ → ℝ) × (ℕ → ℝ) :=
  bitrevGo size (size - 1) 1 0 re im

/-- Innermost butterfly loop `for (j = 0; j < len / 2; j++)` of
`AudioProcessor::fft`: `i` is the block base, `wr`/`wi` the running twiddle
factor, `wlr`/`wli` the per-stage root of unity; the first recursion
argument counts the remaining iterations. -/
noncomputable def bflyInner (i len : ℕ) (wlr wli : ℝ) :
    ℕ → ℕ → ℝ → ℝ → (ℕ → ℝ) → (ℕ → ℝ) → (ℕ → ℝ) × (ℕ → ℝ)
  | 0, _, _, _, re, im => (re, im)
  | k + 1, j, wr, wi, re, im =>
    let u := i + j
    let v := i + j + len / 2
    let ur := re u
    let ui := im u
    let vr := re v
    let vi := im v
    let re' := fun t => if t = u then ur + vr
               else if t = v then (ur - vr) * wr - (ui - vi) * wi else re t
    let im' := fun t => if t = u then ui + vi
               else if t = v then (ur - vr) * wi + (ui - vi) * wr else im t
    bflyInner i len wlr wli k (j + 1) (wr * wlr - wi * wli) (wr * wli + wi * wlr) re' im'

/-- Middle butterfly loop `for (i = 0; i < size; i += len)` of
`AudioProcessor::fft`; the first recursion argument is the number of
remaining blocks (`size / len`). -/
noncomputable def bflyBlocks (len : ℕ) (wlr wli : ℝ) :
    ℕ → ℕ → (ℕ → ℝ) → (ℕ → ℝ) → (ℕ → ℝ) × (ℕ → ℝ)
  | 0, _, re, im => (re, im)
  | b + 1, i, re, im =>
    let p := bflyInner i len wlr wli (len / 2) 0 1 0 re im
    bflyBlocks len wlr wli b (i + len) p.1 p.2

/-- Outer stage loop `for (len = 2; len <= size; len <<= 1)` of
`AudioProcessor::fft`; the first recursion argument is a fuel bound on the
number of stages (`size` always suffices since the stage count is
`log2 size`). -/
noncomputable def bflyStages (size : ℕ) :
    ℕ → ℕ → (ℕ → ℝ) → (ℕ → ℝ) → (ℕ → ℝ) × (ℕ → ℝ)
  | 0, _, re, im => (re, im)
  | st + 1, len, re, im =>
    if len ≤ size then
      let wlr := Real.cos (-(2 * Real.pi) / (len : ℝ))
      let wli := Real.sin (-(2 * Real.pi) / (len : ℝ))
      let p := bflyBlocks len wlr wli (size / len) 0 re im
      bflyStages size st (len * 2) p.1 p.2
    else (re, im)

/-- Source function `AudioProcessor::fft` (AudioProcessing.cpp lines 214-267): bit-reversal
permutation followed by the Cooley-Tukey merge stages, exactly as coded. -/
noncomputable def fft (re im : ℕ → ℝ) (size : ℕ) : (ℕ → ℝ) × (ℕ → ℝ) :=
  let p := bitrevPermute re im size
  bflyStages size size 2 p.1 p.2

/-- Source function `AudioProcessor::ifft` (AudioProcessing.cpp lines 270-284): negate the
imaginary part, run the forward transform, negate the imaginary part again
and scale both parts by `1/size`. -/
noncomputable def ifft (re im : ℕ → ℝ) (size : ℕ) : (ℕ → ℝ) × (ℕ → ℝ) :=
  let im₁ := fun t => if t < size then -(im t) else im t
  let p := fft re im₁ size
  (fun t => if t < size then p.1 t / (size : ℝ) else p.1 t,
   fun t => if t < size then -(p.2 t) / (size : ℝ) else p.2 t)

/-- Source function `AudioProcessor::applyWindow` (lines 207-211): multiply the first `size`
entries of a buffer by the window coefficients. -/
noncomputable def applyWindow (win buf : ℕ → ℝ) (size : ℕ) : ℕ → ℝ :=
  fun t => if t < size then buf t * win t else buf t

/-- The accumulation loop of `AudioProcessor::calculateEnergy`
(sum of squares of the first `size` entries). -/
noncomputable def sumSquares (buf : ℕ → ℝ) : ℕ → ℝ
  | 0 => 0
  | n + 1 => sumSquares buf n + buf n * buf n

/-- Source function `AudioProcessor::calculateEnergy` (lines 329-335): RMS energy. -/
noncomputable def calculateEnergy (buf : ℕ → ℝ) (size : ℕ) : ℝ :=
  Real.sqrt (sumSquares buf size / (size : ℝ))

/-- The accumulation loop of `AudioProcessor::calculateZCR`:
`zcrSum buf n` covers the sign-change tests for index pairs
`(1,0) … (n, n-1)`, i.e. the loop `for (i = 1; i <= n; i++)`. -/
noncomputable def zcrSum (buf : ℕ → ℝ) : ℕ → ℝ
  | 0 => 0
  | n + 1 => zcrSum buf n +
      (if (buf (n + 1) > 0 ∧ buf n < 0) ∨ (buf (n + 1) < 0 ∧ buf n > 0)
       then 1 else 0)

/-- Source function `AudioProcessor::calculateZCR` (lines 338-346): zero-crossing rate. -/
noncomputable def calculateZCR (buf : ℕ → ℝ) (size : ℕ) : ℝ :=
  zcrSum buf (size - 1) / (size : ℝ)

/-- Null-ness of each `ps_malloc`-allocated buffer of `AudioProcessor`
(`true` = allocated, `false` = null pointer); also serves as the allocation
oracle handed to `initializeBuffers`. -/
structure BufFlags where
  inputBuffer : Bool
  outputBuffer : Bool
  overlapBuffer : Bool
  windowBuffer : Bool
  fftReal : Bool
  fftImag : Bool
  magnitude : Bool
  phase : Bool
  noiseSpectrum : Bool
  signalSpectrum : Bool
  wienerFilter : Bool
deriving DecidableEq

/-- The oracle under which every allocation succeeds. -/
def allocAll : BufFlags :=
  ⟨true, true, true, true, true, true, true, true, true, true, true⟩

/-- The persistent state of an `AudioProcessor` instance.  Per-frame scratch
arrays (`inputBuffer`, `outputBuffer`, `fftReal`, `fftImag`, `magnitude`,
`phase`, `signalSpectrum`) are fully overwritten before any use inside a
single `processFrame` call, so only their allocation flags are kept. -/
structure APState where
  bufs : BufFlags
  windowBuffer : ℕ → ℝ
  overlapBuffer : ℕ → ℝ
  noiseSpectrum : ℕ → ℝ
  wienerFilter : ℕ → ℝ
  energyHistory : ℕ → ℝ
  zcrHistory : ℕ → ℝ
  vadState : ℕ
  vadCounter : ℕ
  hangoverCounter : ℕ
  noiseEstimationMode : Bool
  noiseFrameCount : ℕ

/-- The `AudioProcessor()` constructor (lines 8-35): all pointers null,
counters zero, `noiseEstimationMode` true, histories cleared. -/
noncomputable def mkAudioProcessor : APState where
  bufs := ⟨false, false, false, false, false, false, false, false, false, false, false⟩
  windowBuffer := zeroFn
  overlapBuffer := zeroFn
  noiseSpectrum := zeroFn
  wienerFilter := zeroFn
  energyHistory := zeroFn
  zcrHistory := zeroFn
  vadState := 0
  vadCounter := 0
  hangoverCounter := 0
  noiseEstimationMode := true
  noiseFrameCount := 0

/-- The Hann window computed by `AudioProcessor::begin` (lines 47-49). -/
noncomputable def hannWindow (old : ℕ → ℝ) : ℕ → ℝ :=
  fun i => if i < FFT_SIZE
    then 0.5 * (1 - Real.cos (2 * Real.pi * (i : ℝ) / ((FFT_SIZE : ℝ) - 1)))
    else old i

/-- Source function `AudioProcessor::initializeBuffers` (lines 67-86) with an explicit
allocation oracle: each `ps_malloc` yields a buffer iff the oracle says so
(no null checks are performed by the source), and the overlap buffer is
zeroed only when its own allocation succeeded. -/
noncomputable def initializeBuffers (s : APState) (alloc : BufFlags) : APState :=
  { s with
    bufs := alloc
    overlapBuffer := if alloc.overlapBuffer then zeroFn else s.overlapBuffer }

/-- Source function `AudioProcessor::begin` (lines 43-59): calls `initializeBuffers`, fills
the Hann window, seeds the noise spectrum and Wiener gains, and returns
`true` unconditionally — the source inspects none of the allocations.
(The stores into `windowBuffer`, `noiseSpectrum` and `wienerFilter` would be
undefined behaviour in C when those allocations failed; the model records
the intended stores, and theorems about `begin` only use oracles under
which every buffer that `begin` writes was allocated.) -/
noncomputable def beginAP (s : APState) (alloc : BufFlags) : APState × Bool :=
  let s₁ := initializeBuffers s alloc
  let s₂ := { s₁ with
    windowBuffer := hannWindow s₁.windowBuffer
    noiseSpectrum := fun i => if i < FFT_SIZE / 2 then 0.001 else s₁.noiseSpectrum i
    wienerFilter := fun i => if i < FFT_SIZE / 2 then 1 else s₁.wienerFilter i }
  (s₂, true)

/-- Source function `AudioProcessor::end` / `freeBuffers` (lines 62-101): every buffer is
released and its pointer nulled. -/
noncomputable def endAP (s : APState) : APState :=
  { s with bufs := ⟨false, false, false, false, false, false, false, false, false, false, false⟩ }

/-- The fully initialized engine: constructor followed by `begin` with every
allocation succeeding. -/
noncomputable def initState : APState := (beginAP mkAudioProcessor allocAll).1

/-- Result of the VAD update block of `processFrame` (lines 127-143). -/
structure VadRes where
  state : ℕ
  counter : ℕ
  hangover : ℕ
  mode : Bool

/-- The VAD decision block of `AudioProcessor::processFrame`
(lines 129-143): on a raw-active frame the (uint8) counter is incremented
and the hangover reloaded, and voice is confirmed once the counter reaches
`VAD_TRIGGER_FRAMES` (which also stops noise estimation); otherwise the
counter resets and the hangover counts down before the state drops back to
silence. -/
def vadStep (active : Bool) (st cnt hang : ℕ) (mode : Bool) : VadRes :=
  if active then
    let c := (cnt + 1) % 256
    if VAD_TRIGGER_FRAMES ≤ c then ⟨1, c, VAD_HANGOVER_FRAMES, false⟩
    else ⟨st, c, VAD_HANGOVER_FRAMES, mode⟩
  else
    if 0 < hang then ⟨st, 0, hang - 1, mode⟩
    else ⟨0, 0, hang, mode⟩

/-- The history shift of `processFrame` (lines 119-124): entries
`1 … VAD_HANGOVER_FRAMES-1` take their predecessor's value and entry 0 the
fresh measurement. -/
noncomputable def shiftHistory (old : ℕ → ℝ) (fresh : ℝ) : ℕ → ℝ :=
  fun i => if i = 0 then fresh
    else if i < VAD_HANGOVER_FRAMES then old (i - 1) else old i

/-- Float normalization of the int16 input frame (line 111). -/
noncomputable def inputFloat (input : ℕ → ℤ) : ℕ → ℝ :=
  fun i => (input i : ℝ) / 32768

/-- The raw VAD activity decision of line 127,
`(energy > VAD_ENERGY_THRESHOLD) && (zcr > VAD_ZCR_THRESHOLD)`. -/
noncomputable def activeBool (x : ℕ → ℝ) (frameSize : ℕ) : Bool :=
  if calculateEnergy x frameSize > VAD_ENERGY_THRESHOLD ∧
     calculateZCR x frameSize > VAD_ZCR_THRESHOLD
  then true else false

/-- Source function `AudioProcessor::updateNoiseSpectrum` (lines 309-315): per-bin
exponential moving average over the first `FFT_SIZE / 2` bins. -/
noncomputable def updateNoiseSpectrum (noise spectrum : ℕ → ℝ) : ℕ → ℝ :=
  fun k => if k < FFT_SIZE / 2
    then NOISE_FLOOR_ALPHA * noise k + (1 - NOISE_FLOOR_ALPHA) * spectrum k
    else noise k

/-- Source function `AudioProcessor::computeWienerFilter` (lines 318-326): per-bin
SNR-derived gain, floored at `SPECTRAL_FLOOR` by `fmax`. -/
noncomputable def computeWienerFilter (signal noise : ℕ → ℝ) : ℕ → ℝ :=
  fun k =>
    let snr := signal k / (noise k + 1e-10)
    max (snr / (1 + snr)) SPECTRAL_FLOOR

/-- C `atan2(y, x)`, modelled exactly as the argument of the complex number
`x + iy` (range `(-π, π]`, `atan2 0 0 = 0`). -/
noncomputable def atan2 (y x : ℝ) : ℝ := Complex.arg ⟨x, y⟩

/-- Source function `AudioProcessor::computeRealImag` (lines 295-306) on buffers whose
current contents are `reOld`/`imOld`: the first `half` entries are rebuilt
from magnitude and phase, then the upper half is mirrored sequentially —
at index `half` the mirror reads the still-unwritten old entry (the C loop
`real[i] = real[2*size - i]` reads `real[half]` itself there). -/
noncomputable def computeRealImag (mag ph reOld imOld : ℕ → ℝ) (half : ℕ) :
    (ℕ → ℝ) × (ℕ → ℝ) :=
  (fun k => if k < half then mag k * Real.cos (ph k)
    else if k < 2 * half then
      (if 2 * half - k < half then mag (2 * half - k) * Real.cos (ph (2 * half - k))
       else reOld (2 * half - k))
    else reOld k,
   fun k => if k < half then mag k * Real.sin (ph k)
    else if k < 2 * half then
      (if 2 * half - k < half then -(mag (2 * half - k) * Real.sin (ph (2 * half - k)))
       else -(imOld (2 * half - k)))
    else imOld k)

/-- The forward spectral analysis of the `frameSize == FFT_SIZE` branch of
`processFrame` (lines 147-155): window the float frame, zero the imaginary
part, run the forward FFT. -/
noncomputable def frameFFT (win x : ℕ → ℝ) : (ℕ → ℝ) × (ℕ → ℝ) :=
  fft (applyWindow win x FFT_SIZE) zeroFn FFT_SIZE

/-- Per-bin magnitude of the analysed frame
(`AudioProcessor::computeMagnitudePhase`, lines 287-292). -/
noncomputable def frameMag (win x : ℕ → ℝ) : ℕ → ℝ :=
  fun k => Real.sqrt ((frameFFT win x).1 k ^ 2 + (frameFFT win x).2 k ^ 2)

/-- Per-bin phase of the analysed frame
(`AudioProcessor::computeMagnitudePhase`, lines 287-292). -/
noncomputable def framePhase (win x : ℕ → ℝ) : ℕ → ℝ :=
  fun k => atan2 ((frameFFT win x).2 k) ((frameFFT win x).1 k)

/-- The filtered magnitude spectrum (lines 169-171): each of the first
`FFT_SIZE / 2` bins multiplied by the Wiener gain computed against the
noise spectrum `ns`. -/
noncomputable def filteredMag (win ns x : ℕ → ℝ) : ℕ → ℝ :=
  fun k => if k < FFT_SIZE / 2
    then frameMag win x k * computeWienerFilter (frameMag win x) ns k
    else frameMag win x k

/-- The synthesis half of the spectral branch (lines 173-180): reconstruct
the complex spectrum from filtered magnitude and original phase, inverse
transform, and window again.  `ns` is the noise spectrum in force for this
frame (after any update). -/
noncomputable def synthFrame (win ns x : ℕ → ℝ) : ℕ → ℝ :=
  let p := computeRealImag (filteredMag win ns x) (framePhase win x)
    (frameFFT win x).1 (frameFFT win x).2 (FFT_SIZE / 2)
  applyWindow win (ifft p.1 p.2 FFT_SIZE).1 FFT_SIZE

/-- The overlap-add output of the spectral branch (lines 182-188): the first
`OVERLAP_SIZE` samples add the retained tail `ov` of the previous call, the
rest pass through. -/
noncomputable def spectralOut (win ns ov x : ℕ → ℝ) : ℕ → ℝ :=
  fun i => if i < OVERLAP_SIZE then synthFrame win ns x i + ov i
           else synthFrame win ns x i

/-- Saturating `constrain(amt, low, high)` of Arduino. -/
noncomputable def constrainR (x lo hi : ℝ) : ℝ :=
  if x < lo then lo else if x > hi then hi else x

/-- C truncation of a float toward zero on conversion to an integer type. -/
noncomputable def truncR (x : ℝ) : ℤ :=
  if 0 ≤ x then ⌊x⌋ else ⌈x⌉

/-- The output conversion of lines 198-201:
`(int16_t)constrain(sample, -32768, 32767)`. -/
noncomputable def int16OfReal (x : ℝ) : ℤ :=
  truncR (constrainR x (-32768) 32767)

/-- Source function `AudioProcessor::processFrame` (lines 104-204).  Returns `none` exactly
when the source returns `false` (null `inputBuffer` or `outputBuffer`),
otherwise the updated engine state and the int16 output frame. -/
noncomputable def processFrame (s : APState) (input : ℕ → ℤ) (frameSize : ℕ) :
    Option (APState × (ℕ → ℤ)) :=
  if s.bufs.inputBuffer = false ∨ s.bufs.outputBuffer = false then none
  else
    let x := inputFloat input
    let energy := calculateEnergy x frameSize
    let zcr := calculateZCR x frameSize
    let eH := shiftHistory s.energyHistory energy
    let zH := shiftHistory s.zcrHistory zcr
    let v := vadStep (activeBool x frameSize) s.vadState s.vadCounter
      s.hangoverCounter s.noiseEstimationMode
    if frameSize = FFT_SIZE then
      let doNoise := v.state = 0 ∧ v.mode = true
      let ns := if doNoise then updateNoiseSpectrum s.noiseSpectrum (frameMag s.windowBuffer x)
                else s.noiseSpectrum
      let nfc := if doNoise then (s.noiseFrameCount + 1) % 65536 else s.noiseFrameCount
      let wf := computeWienerFilter (frameMag s.windowBuffer x) ns
      let ov' := fun i => if i < OVERLAP_SIZE
        then synthFrame s.windowBuffer ns x (FFT_SIZE - OVERLAP_SIZE + i)
        else s.overlapBuffer i
      some ({ s with
          energyHistory := eH
          zcrHistory := zH
          vadState := v.state
          vadCounter := v.counter
          hangoverCounter := v.hangover
          noiseEstimationMode := v.mode
          noiseSpectrum := ns
          noiseFrameCount := nfc
          wienerFilter := wf
          overlapBuffer := ov' },
        fun i => int16OfReal (spectralOut s.windowBuffer ns s.overlapBuffer x i * 32768))
    else
      some ({ s with
          energyHistory := eH
          zcrHistory := zH
          vadState := v.state
          vadCounter := v.counter
          hangoverCounter := v.hangover
          noiseEstimationMode := v.mode },
        fun i => int16OfReal (x i * 32768))

/-- The state after a `processFrame` call (the source mutates in place; a
failed call —  null buffers — leaves the state untouched). -/
noncomputable def runFrame (s : APState) (input : ℕ → ℤ) (frameSize : ℕ) : APState :=
  match processFrame s input frameSize with
  | some p => p.1
  | none => s

/-- Source function `AudioProcessor::isVoiceActive` (lines 349-351). -/
def isVoiceActive (s : APState) : Bool := s.vadState == 1

/-- Source function `AudioProcessor::enableNoiseSupression` (lines 372-374): stores the flag
into `noiseEstimationMode` and nothing else. -/
noncomputable def enableNoiseSupression (s : APState) (enable : Bool) : APState :=
  { s with noiseEstimationMode := enable }

/-- Source function `AudioUtils::rms` (lines 397-403). -/
noncomputable def rmsAU (buf : ℕ → ℝ) (size : ℕ) : ℝ :=
  Real.sqrt (sumSquares buf size / (size : ℝ))

/-- Source function `AudioUtils::applyGain` (lines 413-417). -/
noncomputable def applyGain (buf : ℕ → ℝ) (size : ℕ) (gain : ℝ) : ℕ → ℝ :=
  fun i => if i < size then buf i * gain else buf i

/-- The state of an `AudioEffects` instance. -/
structure FXState where
  agcEnabled : Bool
  equalizerEnabled : Bool
  compressorEnabled : Bool
  limiterEnabled : Bool
  agcTarget : ℝ
  agcGain : ℝ
  agcAttack : ℝ
  agcRelease : ℝ
  eqGains : ℕ → ℝ
  eqCoeffs : ℕ → ℕ → ℝ
  eqStates : ℕ → ℕ → ℝ

/-- Source function `AudioEffects::biquadFilter` (lines 503-514): direct-form biquad;
returns the output sample and the updated 4-entry state. -/
noncomputable def biquadFilter (input : ℝ) (c st : ℕ → ℝ) : ℝ × (ℕ → ℝ) :=
  let out := c 0 * input + c 1 * st 0 + c 2 * st 1 - c 3 * st 2 - c 4 * st 3
  (out, fun k => if k = 1 then st 0 else if k = 0 then input
    else if k = 3 then st 2 else if k = 2 then out else st k)

/-- The per-sample band cascade of `AudioEffects::processEqualizer`
(lines 494-497): apply the biquad of band `b`, then of `b+1`, …; the first
recursion argument counts the remaining bands. -/
noncomputable def eqCascadeGo (c : ℕ → ℕ → ℝ) :
    ℕ → ℕ → ℝ → (ℕ → ℕ → ℝ) → ℝ × (ℕ → ℕ → ℝ)
  | 0, _, x, sts => (x, sts)
  | r + 1, b, x, sts =>
    let p := biquadFilter x (c b) (sts b)
    eqCascadeGo c r (b + 1) p.1 (fun b' => if b' = b then p.2 else sts b')

/-- The sample loop of `AudioEffects::processEqualizer` (lines 489-501):
process sample `i`, store it back, continue with the threaded biquad
states; the first recursion argument counts the remaining samples. -/
noncomputable def eqFrameGo (c : ℕ → ℕ → ℝ) :
    ℕ → ℕ → (ℕ → ℝ) → (ℕ → ℕ → ℝ) → (ℕ → ℝ) × (ℕ → ℕ → ℝ)
  | 0, _, buf, sts => (buf, sts)
  | r + 1, i, buf, sts =>
    let p := eqCascadeGo c NUM_FILTERS 0 (buf i) sts
    eqFrameGo c r (i + 1) (fun t => if t = i then p.1 else buf t) p.2

/-- Source function `AudioEffects::processEqualizer` (lines 489-501). -/
noncomputable def processEqualizer (fx : FXState) (buf : ℕ → ℝ) (size : ℕ) :
    FXState × (ℕ → ℝ) :=
  let p := eqFrameGo fx.eqCoeffs size 0 buf fx.eqStates
  ({ fx with eqStates := p.2 }, p.1)

/-- Source function `AudioEffects::processAGC` (lines 476-487): measure the frame RMS and,
when it is positive, nudge the gain toward the target with asymmetric
attack/release, clamp it to `[0.1, 10]`, and scale the frame. -/
noncomputable def processAGC (fx : FXState) (buf : ℕ → ℝ) (size : ℕ) :
    FXState × (ℕ → ℝ) :=
  let r := rmsAU buf size
  if r > 0 then
    let err := fx.agcTarget - r
    let a := if err > 0 then fx.agcAttack else fx.agcRelease
    let g := constrainR (fx.agcGain + a * err) 0.1 10
    ({ fx with agcGain := g }, applyGain buf size g)
  else (fx, buf)

/-- Modelled from the spec: `AudioEffects::processCompressor` is declared in
AudioProcessing.h and gated by `compressorEnabled` in
`AudioEffects::processFrame`, but its definition is absent from the source;
the spec only calls it an optional stage.  It is modelled as a no-op and
every theorem instantiates it disabled. -/
noncomputable def processCompressor (fx : FXState) (buf : ℕ → ℝ) (_size : ℕ) :
    FXState × (ℕ → ℝ) := (fx, buf)

/-- Modelled from the spec: `AudioEffects::processLimiter` is declared in
AudioProcessing.h and gated by `limiterEnabled` in
`AudioEffects::processFrame`, but its definition is absent from the source;
the spec only calls it an optional stage.  It is modelled as a no-op and
every theorem instantiates it disabled. -/
noncomputable def processLimiter (fx : FXState) (buf : ℕ → ℝ) (_size : ℕ) :
    FXState × (ℕ → ℝ) := (fx, buf)

/-- Source function `AudioEffects::processFrame` (lines 454-474): copy the input to the
output buffer, then run the enabled stages in order — AGC, equalizer,
compressor, limiter. -/
noncomputable def fxProcessFrame (fx : FXState) (input : ℕ → ℝ) (size : ℕ) :
    FXState × (ℕ → ℝ) :=
  let p₁ := if fx.agcEnabled then processAGC fx input size else (fx, input)
  let p₂ := if p₁.1.equalizerEnabled then processEqualizer p₁.1 p₁.2 size else p₁
  let p₃ := if p₂.1.compressorEnabled then processCompressor p₂.1 p₂.2 size else p₂
  if p₃.1.limiterEnabled then processLimiter p₃.1 p₃.2 size else p₃

/-! ### Helper lemmas -/

/-- Function `processFrame` never touches the allocation flags. -/
lemma runFrame_bufs (s : APState) (input : ℕ → ℤ) (n : ℕ) :
    (runFrame s input n).bufs = s.bufs := by
  unfold runFrame processFrame
  split_ifs <;> rfl

/-- Int16 values in range survive the float round-trip of `processFrame`'s
pass-through path exactly. -/
lemma int16OfReal_roundtrip (z : ℤ) (h1 : -32768 ≤ z) (h2 : z ≤ 32767) :
    int16OfReal ((z : ℝ) / 32768 * 32768) = z := by
  have hx : (z : ℝ) / 32768 * 32768 = (z : ℝ) := by field_simp
  rw [hx]
  unfold int16OfReal constrainR truncR
  have hlo : ¬((z : ℝ) < -32768) := by
    rw [not_lt]; exact_mod_cast h1
  have hhi : ¬((z : ℝ) > 32767) := by
    rw [gt_iff_lt, not_lt]; exact_mod_cast h2
  rw [if_neg hlo, if_neg hhi]
  by_cases hz : (0 : ℝ) ≤ (z : ℝ)
  · rw [if_pos hz, Int.floor_intCast]
  · rw [if_neg hz, Int.ceil_intCast]

/-- The raw-active hypothesis on a frame, as the source computes it. -/
noncomputable def activeCond (f : ℕ → ℤ) (n : ℕ) : Prop :=
  calculateEnergy (inputFloat f) n > VAD_ENERGY_THRESHOLD ∧
  calculateZCR (inputFloat f) n > VAD_ZCR_THRESHOLD

lemma activeBool_of_cond {f : ℕ → ℤ} {n : ℕ} (h : activeCond f n) :
    activeBool (inputFloat f) n = true := by
  unfold activeBool
  exact if_pos h

lemma activeBool_of_not_cond {f : ℕ → ℤ} {n : ℕ} (h : ¬activeCond f n) :
    activeBool (inputFloat f) n = false := by
  unfold activeBool
  exact if_neg h

/-- The VAD fields of the state after `processFrame` are exactly those
produced by the VAD decision block. -/
lemma runFrame_vad (s : APState) (input : ℕ → ℤ) (n : ℕ)
    (hin : s.bufs.inputBuffer = true) (hout : s.bufs.outputBuffer = true) :
    (runFrame s input n).vadState =
      (vadStep (activeBool (inputFloat input) n) s.vadState s.vadCounter
        s.hangoverCounter s.noiseEstimationMode).state ∧
    (runFrame s input n).vadCounter =
      (vadStep (activeBool (inputFloat input) n) s.vadState s.vadCounter
        s.hangoverCounter s.noiseEstimationMode).counter ∧
    (runFrame s input n).hangoverCounter =
      (vadStep (activeBool (inputFloat input) n) s.vadState s.vadCounter
        s.hangoverCounter s.noiseEstimationMode).hangover ∧
    (runFrame s input n).noiseEstimationMode =
      (vadStep (activeBool (inputFloat input) n) s.vadState s.vadCounter
        s.hangoverCounter s.noiseEstimationMode).mode := by
  have hcond : ¬(s.bufs.inputBuffer = false ∨ s.bufs.outputBuffer = false) := by
    simp [hin, hout]
  unfold runFrame processFrame
  rw [if_neg hcond]
  split_ifs <;> exact ⟨rfl, rfl, rfl, rfl⟩

/-! ### C6 — Wiener gain is floored at `SPECTRAL_FLOOR` -/

/-- C6: for non-negative signal and noise magnitudes every Wiener gain
produced by `computeWienerFilter` is at least `SPECTRAL_FLOOR = 0.1`, in
particular strictly positive — including at zero signal magnitude. -/
theorem wiener_gain_floored (signal noise : ℕ → ℝ)
    (_hs : ∀ k, 0 ≤ signal k) (_hn : ∀ k, 0 ≤ noise k)
    (k : ℕ) (_hk : k < FFT_SIZE / 2) :
    SPECTRAL_FLOOR ≤ computeWienerFilter signal noise k ∧
    0 < computeWienerFilter signal noise k := by
  have hfloor : SPECTRAL_FLOOR ≤ computeWienerFilter signal noise k := by
    unfold computeWienerFilter
    exact le_max_right _ _
  refine ⟨hfloor, lt_of_lt_of_le ?_ hfloor⟩
  unfold SPECTRAL_FLOOR
  norm_num

/-- Witness for C6 at the all-zero signal and noise spectra, bin 0. -/
theorem wiener_gain_floored_witness :
    SPECTRAL_FLOOR ≤ computeWienerFilter zeroFn zeroFn 0 ∧
    0 < computeWienerFilter zeroFn zeroFn 0 :=
  wiener_gain_floored zeroFn zeroFn (fun _ => le_refl 0) (fun _ => le_refl 0)
    0 (by norm_num [FFT_SIZE])

/-! ### C3 — `begin` ignores allocation failures -/

/-- The allocation oracle under which the `inputBuffer` allocation fails and
every other allocation succeeds (`begin` itself never dereferences
`inputBuffer`, so this failure triggers no undefined behaviour inside
`begin`). -/
def failAlloc : BufFlags := { allocAll with inputBuffer := false }

/-- C3 (code bug): with the `inputBuffer` allocation failing, `begin` still
reports success, releases nothing (every other buffer stays allocated), and
leaves an unusable instance — the very next `processFrame` fails. -/
theorem begin_ignores_alloc_failure :
    (beginAP mkAudioProcessor failAlloc).2 = true ∧
    (beginAP mkAudioProcessor failAlloc).1.bufs.inputBuffer = false ∧
    (beginAP mkAudioProcessor failAlloc).1.bufs.outputBuffer = true ∧
    (beginAP mkAudioProcessor failAlloc).1.bufs.overlapBuffer = true ∧
    (beginAP mkAudioProcessor failAlloc).1.bufs.windowBuffer = true ∧
    processFrame (beginAP mkAudioProcessor failAlloc).1 (fun _ => 0) 4 = none := by
  refine ⟨rfl, rfl, rfl, rfl, rfl, ?_⟩
  unfold processFrame
  rw [if_pos]
  left
  rfl

/-! ### C8 — failure is exactly "uninitialized"; length mismatch is
pass-through -/

/-- C8: `processFrame` fails exactly when `inputBuffer` or `outputBuffer`
is unallocated, and on an initialized engine a frame whose length differs
from `FFT_SIZE` succeeds with the input copied through unmodified. -/
theorem processFrame_failure_iff (s : APState) (input : ℕ → ℤ) (n : ℕ) :
    (processFrame s input n = none ↔
      s.bufs.inputBuffer = false ∨ s.bufs.outputBuffer = false) ∧
    (s.bufs.inputBuffer = true → s.bufs.outputBuffer = true → n ≠ FFT_SIZE →
      (∀ i, i < n → -32768 ≤ input i ∧ input i ≤ 32767) →
      ∃ s' out, processFrame s input n = some (s', out) ∧
        ∀ i, i < n → out i = input i) := by
  constructor
  · unfold processFrame
    split_ifs with h₁ h₂ <;> simp [h₁]
  · intro hin hout hne hrange
    have hcond : ¬(s.bufs.inputBuffer = false ∨ s.bufs.outputBuffer = false) := by
      simp [hin, hout]
    unfold processFrame
    rw [if_neg hcond, if_neg hne]
    refine ⟨_, _, rfl, ?_⟩
    intro i hi
    unfold inputFloat
    exact int16OfReal_roundtrip (input i) (hrange i hi).1 (hrange i hi).2

/-- Witness for C8: the never-initialized engine rejects a frame, while the
initialized engine passes a short all-zero frame through unchanged. -/
theorem processFrame_failure_iff_witness :
    processFrame mkAudioProcessor (fun _ => 0) 4 = none ∧
    ∃ s' out, processFrame initState (fun _ => 0) 4 = some (s', out) ∧
      ∀ i, i < 4 → out i = 0 := by
  constructor
  · exact (processFrame_failure_iff mkAudioProcessor (fun _ => 0) 4).1.mpr
      (Or.inl rfl)
  · obtain ⟨s', out, heq, hpass⟩ :=
      (processFrame_failure_iff initState (fun _ => 0) 4).2 rfl rfl
        (by norm_num [FFT_SIZE]) (fun i _ => by norm_num)
    exact ⟨s', out, heq, fun i hi => hpass i hi⟩

/-! ### C5 — exactly `VAD_TRIGGER_FRAMES` active frames flip the VAD -/

/-- C5: from the reset state, the VAD is still inactive after the first and
second raw-active frames and becomes active exactly on the third
(`VAD_TRIGGER_FRAMES = 3`). -/
theorem vad_triggers_on_third_frame (s : APState) (f₁ f₂ f₃ : ℕ → ℤ)
    (n₁ n₂ n₃ : ℕ)
    (hin : s.bufs.inputBuffer = true) (hout : s.bufs.outputBuffer = true)
    (hst : s.vadState = 0) (hc : s.vadCounter = 0) (_hh : s.hangoverCounter = 0)
    (ha₁ : activeCond f₁ n₁) (ha₂ : activeCond f₂ n₂) (ha₃ : activeCond f₃ n₃) :
    isVoiceActive (runFrame s f₁ n₁) = false ∧
    isVoiceActive (runFrame (runFrame s f₁ n₁) f₂ n₂) = false ∧
    isVoiceActive (runFrame (runFrame (runFrame s f₁ n₁) f₂ n₂) f₃ n₃) = true := by
  set s₁ := runFrame s f₁ n₁ with hs₁
  obtain ⟨hv₁, hc₁, hh₁, hm₁⟩ := runFrame_vad s f₁ n₁ hin hout
  rw [activeBool_of_cond ha₁, hst, hc] at hv₁ hc₁ hh₁ hm₁
  have e₁ : (vadStep true 0 0 s.hangoverCounter s.noiseEstimationMode).state = 0 ∧
      (vadStep true 0 0 s.hangoverCounter s.noiseEstimationMode).counter = 1 := by
    unfold vadStep VAD_TRIGGER_FRAMES
    norm_num
  have hbufs₁ : s₁.bufs = s.bufs := runFrame_bufs s f₁ n₁
  set s₂ := runFrame s₁ f₂ n₂ with hs₂
  obtain ⟨hv₂, hc₂, hh₂, hm₂⟩ := runFrame_vad s₁ f₂ n₂
    (by rw [hbufs₁]; exact hin) (by rw [hbufs₁]; exact hout)
  rw [activeBool_of_cond ha₂, hv₁, e₁.1, hc₁, e₁.2] at hv₂ hc₂
  have e₂ : (vadStep true 0 1 s₁.hangoverCounter s₁.noiseEstimationMode).state = 0 ∧
      (vadStep true 0 1 s₁.hangoverCounter s₁.noiseEstimationMode).counter = 2 := by
    unfold vadStep VAD_TRIGGER_FRAMES
    norm_num
  have hbufs₂ : s₂.bufs = s.bufs := by
    rw [hs₂, runFrame_bufs, hbufs₁]
  obtain ⟨hv₃, _, _, _⟩ := runFrame_vad s₂ f₃ n₃
    (by rw [hbufs₂]; exact hin) (by rw [hbufs₂]; exact hout)
  rw [activeBool_of_cond ha₃, hv₂, e₂.1, hc₂, e₂.2] at hv₃
  have e₃ : (vadStep true 0 2 s₂.hangoverCounter s₂.noiseEstimationMode).state = 1 := by
    unfold vadStep VAD_TRIGGER_FRAMES VAD_HANGOVER_FRAMES
    norm_num
  refine ⟨?_, ?_, ?_⟩
  · unfold isVoiceActive
    rw [hs₁, hv₁, e₁.1]
    rfl
  · unfold isVoiceActive
    rw [hs₂, hv₂, e₂.1]
    rfl
  · unfold isVoiceActive
    rw [hv₃, e₃]
    rfl

/-! ### Concrete frames for the VAD witnesses -/

/-- A two-sample frame alternating between +16384 and −16384: RMS energy
0.5 and zero-crossing rate 0.5, both above their thresholds. -/
def activeFrame : ℕ → ℤ := fun i => if i % 2 = 0 then 16384 else -16384

/-- The all-zero (silent) frame. -/
def silentFrame : ℕ → ℤ := fun _ => 0

lemma activeFrame_cond : activeCond activeFrame 2 := by
  constructor
  · unfold calculateEnergy
    have hsum : sumSquares (inputFloat activeFrame) 2 = 1 / 2 := by
      unfold sumSquares sumSquares sumSquares inputFloat activeFrame
      norm_num
    rw [hsum]
    have h2 : ((2 : ℕ) : ℝ) = 2 := by norm_num
    rw [h2]
    rw [gt_iff_lt, VAD_ENERGY_THRESHOLD, show (1 : ℝ) / 2 / 2 = 1 / 4 by norm_num]
    rw [Real.lt_sqrt (by norm_num)]
    norm_num
  · unfold calculateZCR
    have hz : zcrSum (inputFloat activeFrame) 1 = 1 := by
      unfold zcrSum zcrSum
      rw [if_pos]
      · norm_num
      · unfold inputFloat activeFrame
        norm_num
    rw [hz]
    unfold VAD_ZCR_THRESHOLD
    norm_num

lemma silentFrame_not_cond (n : ℕ) : ¬activeCond silentFrame n := by
  unfold activeCond
  rintro ⟨he, -⟩
  have hsum : ∀ m, sumSquares (inputFloat silentFrame) m = 0 := by
    intro m
    induction m with
    | zero => rfl
    | succ k ih =>
      unfold sumSquares
      rw [ih]
      unfold inputFloat silentFrame
      norm_num
  unfold calculateEnergy at he
  rw [hsum] at he
  rw [zero_div, Real.sqrt_zero] at he
  unfold VAD_ENERGY_THRESHOLD at he
  norm_num at he

/-- Witness for C5: from the freshly initialized engine, three copies of the
concrete active frame flip the VAD exactly on the third. -/
theorem vad_triggers_on_third_frame_witness :
    isVoiceActive (runFrame initState activeFrame 2) = false ∧
    isVoiceActive (runFrame (runFrame initState activeFrame 2) activeFrame 2) = false ∧
    isVoiceActive (runFrame (runFrame (runFrame initState activeFrame 2)
      activeFrame 2) activeFrame 2) = true :=
  vad_triggers_on_third_frame initState activeFrame activeFrame activeFrame 2 2 2
    rfl rfl rfl rfl rfl activeFrame_cond activeFrame_cond activeFrame_cond

/-- Reduction of the VAD block on a raw-active frame. -/
lemma vadStep_active (st cnt hang : ℕ) (m : Bool) :
    vadStep true st cnt hang m =
      if VAD_TRIGGER_FRAMES ≤ (cnt + 1) % 256
      then ⟨1, (cnt + 1) % 256, VAD_HANGOVER_FRAMES, false⟩
      else ⟨st, (cnt + 1) % 256, VAD_HANGOVER_FRAMES, m⟩ := rfl

/-- Reduction of the VAD block on a non-active frame. -/
lemma vadStep_inactive (st cnt hang : ℕ) (m : Bool) :
    vadStep false st cnt hang m =
      if 0 < hang then ⟨st, 0, hang - 1, m⟩ else ⟨0, 0, hang, m⟩ := rfl

/-! ### C2 — hangover behaviour -/

/-- State after `k` further frames `g` (of length `ng`) processed after state `s`. -/
noncomputable def silentChain (g : ℕ → ℤ) (ng : ℕ) (s : APState) : ℕ → APState
  | 0 => s
  | k + 1 => runFrame (silentChain g ng s k) g ng

/-- Counterexample to C2 as stated: from the reset state a single
raw-active frame leaves the VAD inactive (`vadCounter = 1 <
VAD_TRIGGER_FRAMES`), so `isVoiceActive()` is already `false` on the first
silent frame — not `true` through `VAD_HANGOVER_FRAMES` silent frames. -/
theorem one_active_frame_does_not_activate :
    activeCond activeFrame 2 ∧ ¬activeCond silentFrame 2 ∧
    isVoiceActive (runFrame initState activeFrame 2) = false ∧
    isVoiceActive (runFrame (runFrame initState activeFrame 2) silentFrame 2) = false := by
  refine ⟨activeFrame_cond, silentFrame_not_cond 2, ?_, ?_⟩
  · obtain ⟨hv₁, -, -, -⟩ := runFrame_vad initState activeFrame 2 rfl rfl
    rw [activeBool_of_cond activeFrame_cond] at hv₁
    unfold isVoiceActive
    rw [hv₁]
    rfl
  · set s₁ := runFrame initState activeFrame 2 with hs₁
    obtain ⟨hv₁, hc₁, hh₁, -⟩ := runFrame_vad initState activeFrame 2 rfl rfl
    rw [activeBool_of_cond activeFrame_cond] at hv₁ hc₁ hh₁
    have hb₁ : s₁.bufs = initState.bufs := runFrame_bufs initState activeFrame 2
    obtain ⟨hv₂, -, -, -⟩ := runFrame_vad s₁ silentFrame 2
      (by rw [hb₁]; rfl) (by rw [hb₁]; rfl)
    rw [activeBool_of_not_cond (silentFrame_not_cond 2)] at hv₂
    have hst : s₁.vadState = 0 := by rw [hs₁, hv₁]; rfl
    have hhg : s₁.hangoverCounter = 5 := by rw [hs₁, hh₁]; rfl
    unfold isVoiceActive
    rw [hv₂, hst, hhg]
    have : (vadStep false 0 s₁.vadCounter 5 s₁.noiseEstimationMode).state = 0 := by
      rw [vadStep_inactive, if_pos (by norm_num)]
    rw [this]
    rfl

/-- C2 (amended): starting from a state where the VAD is active, one
raw-active frame followed by `VAD_HANGOVER_FRAMES` silent frames keeps
`isVoiceActive()` true through all of them, and it becomes false on the
`(VAD_HANGOVER_FRAMES + 1)`-th consecutive silent frame. -/
theorem vad_hangover_after_voice (s : APState) (a g : ℕ → ℤ) (na ng : ℕ)
    (hin : s.bufs.inputBuffer = true) (hout : s.bufs.outputBuffer = true)
    (hv : s.vadState = 1) (ha : activeCond a na) (hg : ¬activeCond g ng) :
    (∀ k, k ≤ VAD_HANGOVER_FRAMES →
      isVoiceActive (silentChain g ng (runFrame s a na) k) = true) ∧
    isVoiceActive (silentChain g ng (runFrame s a na) (VAD_HANGOVER_FRAMES + 1)) = false := by
  set s₀ := runFrame s a na with hs₀
  have hb₀ : s₀.bufs = s.bufs := runFrame_bufs s a na
  obtain ⟨hv₀, -, hh₀, -⟩ := runFrame_vad s a na hin hout
  rw [activeBool_of_cond ha, hv] at hv₀ hh₀
  have e₀s : (vadStep true 1 s.vadCounter s.hangoverCounter s.noiseEstimationMode).state = 1 := by
    rw [vadStep_active]
    split_ifs <;> rfl
  have e₀h : (vadStep true 1 s.vadCounter s.hangoverCounter
      s.noiseEstimationMode).hangover = VAD_HANGOVER_FRAMES := by
    rw [vadStep_active]
    split_ifs <;> rfl
  have key : ∀ k, k ≤ VAD_HANGOVER_FRAMES →
      (silentChain g ng s₀ k).vadState = 1 ∧
      (silentChain g ng s₀ k).hangoverCounter = VAD_HANGOVER_FRAMES - k ∧
      (silentChain g ng s₀ k).bufs = s.bufs := by
    intro k
    induction k with
    | zero =>
      intro _
      refine ⟨?_, ?_, hb₀⟩
      · show s₀.vadState = 1
        rw [hs₀, hv₀, e₀s]
      · show s₀.hangoverCounter = VAD_HANGOVER_FRAMES - 0
        rw [hs₀, hh₀, e₀h, Nat.sub_zero]
    | succ k ih =>
      intro hk
      obtain ⟨ihs, ihh, ihb⟩ := ih (Nat.le_of_succ_le hk)
      obtain ⟨hvS, -, hhS, -⟩ := runFrame_vad (silentChain g ng s₀ k) g ng
        (by rw [ihb]; exact hin) (by rw [ihb]; exact hout)
      rw [activeBool_of_not_cond hg, ihs, ihh] at hvS hhS
      have hpos : 0 < VAD_HANGOVER_FRAMES - k := by
        unfold VAD_HANGOVER_FRAMES at hk ⊢
        omega
      have estep : (vadStep false 1 (silentChain g ng s₀ k).vadCounter
          (VAD_HANGOVER_FRAMES - k) (silentChain g ng s₀ k).noiseEstimationMode).state = 1 ∧
          (vadStep false 1 (silentChain g ng s₀ k).vadCounter
          (VAD_HANGOVER_FRAMES - k) (silentChain g ng s₀ k).noiseEstimationMode).hangover =
            VAD_HANGOVER_FRAMES - (k + 1) := by
        rw [vadStep_inactive, if_pos hpos]
        refine ⟨rfl, ?_⟩
        show VAD_HANGOVER_FRAMES - k - 1 = VAD_HANGOVER_FRAMES - (k + 1)
        omega
      have hunf : silentChain g ng s₀ (k + 1) = runFrame (silentChain g ng s₀ k) g ng := rfl
      refine ⟨?_, ?_, ?_⟩
      · rw [hunf, hvS, estep.1]
      · rw [hunf, hhS, estep.2]
      · rw [hunf, runFrame_bufs]
        exact ihb
  constructor
  · intro k hk
    unfold isVoiceActive
    rw [(key k hk).1]
    rfl
  · obtain ⟨h5s, h5h, h5b⟩ := key VAD_HANGOVER_FRAMES (le_refl _)
    obtain ⟨hvF, -, -, -⟩ := runFrame_vad (silentChain g ng s₀ VAD_HANGOVER_FRAMES) g ng
      (by rw [h5b]; exact hin) (by rw [h5b]; exact hout)
    rw [activeBool_of_not_cond hg, h5s, h5h, Nat.sub_self] at hvF
    have efin : (vadStep false 1 (silentChain g ng s₀ VAD_HANGOVER_FRAMES).vadCounter 0
        (silentChain g ng s₀ VAD_HANGOVER_FRAMES).noiseEstimationMode).state = 0 := by
      rw [vadStep_inactive, if_neg (by norm_num)]
    have hunf : silentChain g ng s₀ (VAD_HANGOVER_FRAMES + 1) =
        runFrame (silentChain g ng s₀ VAD_HANGOVER_FRAMES) g ng := rfl
    unfold isVoiceActive
    rw [hunf, hvF, efin]
    rfl

/-- A voice-active engine state: the initialized engine with the VAD in the
VOICE state (as reached after three active frames). -/
noncomputable def voiceState : APState :=
  { initState with
      vadState := 1
      vadCounter := 3
      hangoverCounter := 5
      noiseEstimationMode := false }

/-- Witness for the amended C2 at a concrete voice-active state with the
concrete active and silent frames. -/
theorem vad_hangover_after_voice_witness :
    (∀ k, k ≤ VAD_HANGOVER_FRAMES →
      isVoiceActive (silentChain silentFrame 2 (runFrame voiceState activeFrame 2) k) = true) ∧
    isVoiceActive (silentChain silentFrame 2 (runFrame voiceState activeFrame 2)
      (VAD_HANGOVER_FRAMES + 1)) = false :=
  vad_hangover_after_voice voiceState activeFrame silentFrame 2 2 rfl rfl rfl
    activeFrame_cond (silentFrame_not_cond 2)

/-! ### The spectral branch of `processFrame`, named pieces -/

/-- The noise spectrum in force for a `FFT_SIZE`-length frame processed in
state `s`: updated by the EMA exactly when the post-update VAD state is
SILENCE and estimation mode is on, otherwise the previous estimate. -/
noncomputable def noiseAfter (s : APState) (x : ℕ → ℝ) : ℕ → ℝ :=
  if (vadStep (activeBool x FFT_SIZE) s.vadState s.vadCounter s.hangoverCounter
        s.noiseEstimationMode).state = 0 ∧
     (vadStep (activeBool x FFT_SIZE) s.vadState s.vadCounter s.hangoverCounter
        s.noiseEstimationMode).mode = true
  then updateNoiseSpectrum s.noiseSpectrum (frameMag s.windowBuffer x)
  else s.noiseSpectrum

/-- Full reduction of `processFrame` on a frame of length `FFT_SIZE` for an
initialized engine. -/
lemma processFrame_spectral (s : APState) (input : ℕ → ℤ)
    (hin : s.bufs.inputBuffer = true) (hout : s.bufs.outputBuffer = true) :
    processFrame s input FFT_SIZE = some (
      { s with
          energyHistory := shiftHistory s.energyHistory
            (calculateEnergy (inputFloat input) FFT_SIZE)
          zcrHistory := shiftHistory s.zcrHistory
            (calculateZCR (inputFloat input) FFT_SIZE)
          vadState := (vadStep (activeBool (inputFloat input) FFT_SIZE) s.vadState
            s.vadCounter s.hangoverCounter s.noiseEstimationMode).state
          vadCounter := (vadStep (activeBool (inputFloat input) FFT_SIZE) s.vadState
            s.vadCounter s.hangoverCounter s.noiseEstimationMode).counter
          hangoverCounter := (vadStep (activeBool (inputFloat input) FFT_SIZE) s.vadState
            s.vadCounter s.hangoverCounter s.noiseEstimationMode).hangover
          noiseEstimationMode := (vadStep (activeBool (inputFloat input) FFT_SIZE) s.vadState
            s.vadCounter s.hangoverCounter s.noiseEstimationMode).mode
          noiseSpectrum := noiseAfter s (inputFloat input)
          noiseFrameCount :=
            if (vadStep (activeBool (inputFloat input) FFT_SIZE) s.vadState
                  s.vadCounter s.hangoverCounter s.noiseEstimationMode).state = 0 ∧
               (vadStep (activeBool (inputFloat input) FFT_SIZE) s.vadState
                  s.vadCounter s.hangoverCounter s.noiseEstimationMode).mode = true
            then (s.noiseFrameCount + 1) % 65536 else s.noiseFrameCount
          wienerFilter := computeWienerFilter
            (frameMag s.windowBuffer (inputFloat input)) (noiseAfter s (inputFloat input))
          overlapBuffer := fun i => if i < OVERLAP_SIZE
            then synthFrame s.windowBuffer (noiseAfter s (inputFloat input))
              (inputFloat input) (FFT_SIZE - OVERLAP_SIZE + i)
            else s.overlapBuffer i },
      fun i => int16OfReal (spectralOut s.windowBuffer (noiseAfter s (inputFloat input))
        s.overlapBuffer (inputFloat input) i * 32768)) := by
  have hcond : ¬(s.bufs.inputBuffer = false ∨ s.bufs.outputBuffer = false) := by
    simp [hin, hout]
  unfold processFrame noiseAfter
  rw [if_neg hcond, if_pos rfl]

/-! ### C7 — the noise spectrum updates only during confirmed silence -/

/-- C7: `processFrame` changes the noise spectrum only when the frame has
length `FFT_SIZE`, the post-update VAD state is SILENCE and estimation mode
is on; in every other case every bin is unchanged.  When it updates, each
bin follows the `NOISE_FLOOR_ALPHA` exponential moving average toward the
frame's magnitude spectrum, and estimation mode is switched off on the
frame where voice is confirmed. -/
theorem noise_update_only_in_silence (s : APState) (f : ℕ → ℤ) (n : ℕ)
    (hin : s.bufs.inputBuffer = true) (hout : s.bufs.outputBuffer = true) :
    ((n ≠ FFT_SIZE ∨
      ¬((vadStep (activeBool (inputFloat f) n) s.vadState s.vadCounter
          s.hangoverCounter s.noiseEstimationMode).state = 0 ∧
        (vadStep (activeBool (inputFloat f) n) s.vadState s.vadCounter
          s.hangoverCounter s.noiseEstimationMode).mode = true)) →
      (runFrame s f n).noiseSpectrum = s.noiseSpectrum) ∧
    (n = FFT_SIZE →
      ((vadStep (activeBool (inputFloat f) n) s.vadState s.vadCounter
          s.hangoverCounter s.noiseEstimationMode).state = 0 ∧
       (vadStep (activeBool (inputFloat f) n) s.vadState s.vadCounter
          s.hangoverCounter s.noiseEstimationMode).mode = true) →
      ∀ k, k < FFT_SIZE / 2 →
        (runFrame s f n).noiseSpectrum k =
          NOISE_FLOOR_ALPHA * s.noiseSpectrum k +
          (1 - NOISE_FLOOR_ALPHA) * frameMag s.windowBuffer (inputFloat f) k) ∧
    (activeBool (inputFloat f) n = true →
      VAD_TRIGGER_FRAMES ≤ (s.vadCounter + 1) % 256 →
      (runFrame s f n).noiseEstimationMode = false) := by
  have hcond : ¬(s.bufs.inputBuffer = false ∨ s.bufs.outputBuffer = false) := by
    simp [hin, hout]
  refine ⟨?_, ?_, ?_⟩
  · intro h
    rcases h with hne | hnotd
    · unfold runFrame processFrame
      rw [if_neg hcond, if_neg hne]
    · by_cases hn : n = FFT_SIZE
      · subst hn
        unfold runFrame
        rw [processFrame_spectral s f hin hout]
        show noiseAfter s (inputFloat f) = s.noiseSpectrum
        unfold noiseAfter
        rw [if_neg hnotd]
      · unfold runFrame processFrame
        rw [if_neg hcond, if_neg hn]
  · intro hn hd k hk
    subst hn
    unfold runFrame
    rw [processFrame_spectral s f hin hout]
    show noiseAfter s (inputFloat f) k = _
    unfold noiseAfter
    rw [if_pos hd]
    unfold updateNoiseSpectrum
    rw [if_pos hk]
  · intro hact htrig
    obtain ⟨-, -, -, hm⟩ := runFrame_vad s f n hin hout
    rw [hact] at hm
    rw [hm, vadStep_active, if_pos htrig]

/-- Witness for C7: the freshly initialized engine and a two-sample frame
(length ≠ `FFT_SIZE`), exercising the "unchanged" case. -/
theorem noise_update_only_in_silence_witness :
    ((2 ≠ FFT_SIZE ∨
      ¬((vadStep (activeBool (inputFloat silentFrame) 2) initState.vadState
          initState.vadCounter initState.hangoverCounter
          initState.noiseEstimationMode).state = 0 ∧
        (vadStep (activeBool (inputFloat silentFrame) 2) initState.vadState
          initState.vadCounter initState.hangoverCounter
          initState.noiseEstimationMode).mode = true)) →
      (runFrame initState silentFrame 2).noiseSpectrum = initState.noiseSpectrum) ∧
    (2 = FFT_SIZE →
      ((vadStep (activeBool (inputFloat silentFrame) 2) initState.vadState
          initState.vadCounter initState.hangoverCounter
          initState.noiseEstimationMode).state = 0 ∧
       (vadStep (activeBool (inputFloat silentFrame) 2) initState.vadState
          initState.vadCounter initState.hangoverCounter
          initState.noiseEstimationMode).mode = true) →
      ∀ k, k < FFT_SIZE / 2 →
        (runFrame initState silentFrame 2).noiseSpectrum k =
          NOISE_FLOOR_ALPHA * initState.noiseSpectrum k +
          (1 - NOISE_FLOOR_ALPHA) * frameMag initState.windowBuffer (inputFloat silentFrame) k) ∧
    (activeBool (inputFloat silentFrame) 2 = true →
      VAD_TRIGGER_FRAMES ≤ (initState.vadCounter + 1) % 256 →
      (runFrame initState silentFrame 2).noiseEstimationMode = false) :=
  noise_update_only_in_silence initState silentFrame 2 rfl rfl

/-! ### C9 — overlap-add structure of the spectral branch -/

/-- C9: on a `FFT_SIZE`-length frame, the float output's first
`OVERLAP_SIZE` samples are the freshly windowed reconstruction plus the
retained tail of the previous call, the remaining samples are the fresh
reconstruction alone, and afterwards the retained buffer holds the last
`OVERLAP_SIZE` samples of the fresh windowed reconstruction. -/
theorem overlap_add_structure (s : APState) (input : ℕ → ℤ)
    (hin : s.bufs.inputBuffer = true) (hout : s.bufs.outputBuffer = true) :
    processFrame s input FFT_SIZE = some (runFrame s input FFT_SIZE,
      fun i => int16OfReal (spectralOut s.windowBuffer (noiseAfter s (inputFloat input))
        s.overlapBuffer (inputFloat input) i * 32768)) ∧
    (∀ i, i < OVERLAP_SIZE →
      spectralOut s.windowBuffer (noiseAfter s (inputFloat input)) s.overlapBuffer
          (inputFloat input) i =
        synthFrame s.windowBuffer (noiseAfter s (inputFloat input)) (inputFloat input) i +
        s.overlapBuffer i) ∧
    (∀ i, OVERLAP_SIZE ≤ i →
      spectralOut s.windowBuffer (noiseAfter s (inputFloat input)) s.overlapBuffer
          (inputFloat input) i =
        synthFrame s.windowBuffer (noiseAfter s (inputFloat input)) (inputFloat input) i) ∧
    (∀ i, i < OVERLAP_SIZE →
      (runFrame s input FFT_SIZE).overlapBuffer i =
        synthFrame s.windowBuffer (noiseAfter s (inputFloat input)) (inputFloat input)
          (FFT_SIZE - OVERLAP_SIZE + i)) := by
  have hps := processFrame_spectral s input hin hout
  refine ⟨?_, ?_, ?_, ?_⟩
  · unfold runFrame
    rw [hps]
  · intro i hi
    unfold spectralOut
    rw [if_pos hi]
  · intro i hi
    unfold spectralOut
    rw [if_neg (not_lt.mpr hi)]
  · intro i hi
    unfold runFrame
    rw [hps]
    show (if i < OVERLAP_SIZE then _ else s.overlapBuffer i) = _
    rw [if_pos hi]

/-- Witness for C9 at the freshly initialized engine and the all-zero
frame. -/
theorem overlap_add_structure_witness :
    processFrame initState silentFrame FFT_SIZE = some (runFrame initState silentFrame FFT_SIZE,
      fun i => int16OfReal (spectralOut initState.windowBuffer
        (noiseAfter initState (inputFloat silentFrame))
        initState.overlapBuffer (inputFloat silentFrame) i * 32768)) ∧
    (∀ i, i < OVERLAP_SIZE →
      spectralOut initState.windowBuffer (noiseAfter initState (inputFloat silentFrame))
          initState.overlapBuffer (inputFloat silentFrame) i =
        synthFrame initState.windowBuffer (noiseAfter initState (inputFloat silentFrame))
          (inputFloat silentFrame) i + initState.overlapBuffer i) ∧
    (∀ i, OVERLAP_SIZE ≤ i →
      spectralOut initState.windowBuffer (noiseAfter initState (inputFloat silentFrame))
          initState.overlapBuffer (inputFloat silentFrame) i =
        synthFrame initState.windowBuffer (noiseAfter initState (inputFloat silentFrame))
          (inputFloat silentFrame) i) ∧
    (∀ i, i < OVERLAP_SIZE →
      (runFrame initState silentFrame FFT_SIZE).overlapBuffer i =
        synthFrame initState.windowBuffer (noiseAfter initState (inputFloat silentFrame))
          (inputFloat silentFrame) (FFT_SIZE - OVERLAP_SIZE + i)) :=
  overlap_add_structure initState silentFrame rfl rfl

/-! ### C10 — `enableNoiseSupression(false)` only freezes estimation -/

/-- The VAD block never switches estimation mode back on. -/
lemma vadStep_mode_false (a : Bool) (st cnt hang : ℕ) :
    (vadStep a st cnt hang false).mode = false := by
  cases a
  · rw [vadStep_inactive]
    split_ifs <;> rfl
  · rw [vadStep_active]
    split_ifs <;> rfl

/-- C10: `enableNoiseSupression false` changes only the
`noiseEstimationMode` field; on a subsequent `FFT_SIZE`-length frame the
noise spectrum is frozen, yet the output is still produced through
`spectralOut`, whose magnitude bins are each multiplied by the Wiener gain
— spectral suppression is not disabled. -/
theorem enable_noise_supression_only_mode (s : APState) (input : ℕ → ℤ)
    (hin : s.bufs.inputBuffer = true) (hout : s.bufs.outputBuffer = true) :
    enableNoiseSupression s false = { s with noiseEstimationMode := false } ∧
    (runFrame (enableNoiseSupression s false) input FFT_SIZE).noiseSpectrum =
      s.noiseSpectrum ∧
    processFrame (enableNoiseSupression s false) input FFT_SIZE =
      some (runFrame (enableNoiseSupression s false) input FFT_SIZE,
        fun i => int16OfReal (spectralOut s.windowBuffer s.noiseSpectrum
          s.overlapBuffer (inputFloat input) i * 32768)) ∧
    (∀ k, k < FFT_SIZE / 2 →
      filteredMag s.windowBuffer s.noiseSpectrum (inputFloat input) k =
        frameMag s.windowBuffer (inputFloat input) k *
        computeWienerFilter (frameMag s.windowBuffer (inputFloat input))
          s.noiseSpectrum k) := by
  set s' := enableNoiseSupression s false with hs'
  have hnoise : noiseAfter s' (inputFloat input) = s.noiseSpectrum := by
    unfold noiseAfter
    rw [if_neg]
    · rfl
    · rintro ⟨-, hmode⟩
      rw [hs'] at hmode
      rw [show (enableNoiseSupression s false).noiseEstimationMode = false from rfl] at hmode
      rw [vadStep_mode_false] at hmode
      exact absurd hmode (by norm_num)
  have hps := processFrame_spectral s' input hin hout
  refine ⟨rfl, ?_, ?_, ?_⟩
  · unfold runFrame
    rw [hps]
    show noiseAfter s' (inputFloat input) = s.noiseSpectrum
    exact hnoise
  · unfold runFrame
    rw [hps, hnoise]
    rfl
  · intro k hk
    unfold filteredMag
    rw [if_pos hk]

/-- Witness for C10 at the freshly initialized engine and the all-zero
frame. -/
theorem enable_noise_supression_only_mode_witness :
    enableNoiseSupression initState false =
      { initState with noiseEstimationMode := false } ∧
    (runFrame (enableNoiseSupression initState false) silentFrame FFT_SIZE).noiseSpectrum =
      initState.noiseSpectrum ∧
    processFrame (enableNoiseSupression initState false) silentFrame FFT_SIZE =
      some (runFrame (enableNoiseSupression initState false) silentFrame FFT_SIZE,
        fun i => int16OfReal (spectralOut initState.windowBuffer initState.noiseSpectrum
          initState.overlapBuffer (inputFloat silentFrame) i * 32768)) ∧
    (∀ k, k < FFT_SIZE / 2 →
      filteredMag initState.windowBuffer initState.noiseSpectrum (inputFloat silentFrame) k =
        frameMag initState.windowBuffer (inputFloat silentFrame) k *
        computeWienerFilter (frameMag initState.windowBuffer (inputFloat silentFrame))
          initState.noiseSpectrum k) :=
  enable_noise_supression_only_mode initState silentFrame rfl rfl

/-! ### The spectral pipeline maps the all-zero frame to all-zero output -/

lemma swapF_zero (a b : ℕ) : swapF zeroFn a b = zeroFn := by
  funext t
  unfold swapF zeroFn
  split_ifs <;> rfl

lemma bitrevGo_zero (size : ℕ) :
    ∀ c i j, bitrevGo size c i j zeroFn zeroFn = (zeroFn, zeroFn) := by
  intro c
  induction c with
  | zero => intro i j; rfl
  | succ c ih =>
    intro i j
    simp only [bitrevGo, swapF_zero]
    split_ifs <;> exact ih _ _

lemma bflyInner_zero (i len : ℕ) (wlr wli : ℝ) :
    ∀ k j wr wi, bflyInner i len wlr wli k j wr wi zeroFn zeroFn = (zeroFn, zeroFn) := by
  intro k
  induction k with
  | zero => intro j wr wi; rfl
  | succ k ih =>
    intro j wr wi
    simp only [bflyInner, zeroFn, zero_add, sub_self, zero_mul, mul_zero,
      sub_zero, ite_self]
    exact ih (j + 1) _ _

lemma bflyBlocks_zero (len : ℕ) (wlr wli : ℝ) :
    ∀ b i, bflyBlocks len wlr wli b i zeroFn zeroFn = (zeroFn, zeroFn) := by
  intro b
  induction b with
  | zero => intro i; rfl
  | succ b ih =>
    intro i
    simp only [bflyBlocks, bflyInner_zero]
    exact ih _

lemma bflyStages_zero (size : ℕ) :
    ∀ st len, bflyStages size st len zeroFn zeroFn = (zeroFn, zeroFn) := by
  intro st
  induction st with
  | zero => intro len; rfl
  | succ st ih =>
    intro len
    simp only [bflyStages]
    split_ifs
    · simp only [bflyBlocks_zero]
      exact ih _
    · rfl

lemma fft_zero (size : ℕ) : fft zeroFn zeroFn size = (zeroFn, zeroFn) := by
  unfold fft bitrevPermute
  rw [bitrevGo_zero]
  exact bflyStages_zero size size 2

lemma ifft_zero (size : ℕ) : ifft zeroFn zeroFn size = (zeroFn, zeroFn) := by
  unfold ifft
  dsimp only
  have h1 : (fun t => if t < size then -zeroFn t else zeroFn t) = zeroFn := by
    funext t
    unfold zeroFn
    split_ifs <;> simp
  rw [h1, fft_zero]
  refine Prod.ext ?_ ?_ <;> funext t <;> simp [zeroFn]

lemma applyWindow_zero (win : ℕ → ℝ) (n : ℕ) : applyWindow win zeroFn n = zeroFn := by
  funext t
  unfold applyWindow zeroFn
  split_ifs <;> simp

lemma frameFFT_zero (win : ℕ → ℝ) : frameFFT win zeroFn = (zeroFn, zeroFn) := by
  unfold frameFFT
  rw [applyWindow_zero, fft_zero]

lemma frameMag_zero (win : ℕ → ℝ) : frameMag win zeroFn = zeroFn := by
  funext k
  unfold frameMag
  rw [frameFFT_zero]
  show Real.sqrt (zeroFn k ^ 2 + zeroFn k ^ 2) = zeroFn k
  unfold zeroFn
  simp

lemma filteredMag_zero (win ns : ℕ → ℝ) : filteredMag win ns zeroFn = zeroFn := by
  funext k
  unfold filteredMag
  rw [frameMag_zero]
  unfold zeroFn
  split_ifs <;> simp

lemma synthFrame_zero (win ns : ℕ → ℝ) : synthFrame win ns zeroFn = zeroFn := by
  unfold synthFrame
  have hcri : computeRealImag (filteredMag win ns zeroFn) (framePhase win zeroFn)
      (frameFFT win zeroFn).1 (frameFFT win zeroFn).2 (FFT_SIZE / 2) = (zeroFn, zeroFn) := by
    rw [filteredMag_zero, frameFFT_zero]
    unfold computeRealImag
    refine Prod.ext ?_ ?_ <;> funext k <;> simp [zeroFn]
  rw [hcri]
  dsimp only
  rw [ifft_zero]
  dsimp only
  rw [applyWindow_zero]

lemma spectralOut_zero (win ns : ℕ → ℝ) :
    spectralOut win ns zeroFn zeroFn = zeroFn := by
  funext i
  unfold spectralOut
  rw [synthFrame_zero]
  unfold zeroFn
  split_ifs <;> simp

lemma inputFloat_silent : inputFloat silentFrame = zeroFn := by
  funext i
  unfold inputFloat silentFrame zeroFn
  norm_num

lemma int16OfReal_zero : int16OfReal 0 = 0 := by
  unfold int16OfReal constrainR truncR
  norm_num

/-! ### C4 — the effects chain is not applied inside `processFrame` -/

/-- The equalizer's sample loop never touches samples before its cursor. -/
lemma eqFrameGo_preserve (c : ℕ → ℕ → ℝ) :
    ∀ r i buf sts t, t < i → (eqFrameGo c r i buf sts).1 t = buf t := by
  intro r
  induction r with
  | zero => intro i buf sts t _; rfl
  | succ r ih =>
    intro i buf sts t ht
    simp only [eqFrameGo]
    rw [ih (i + 1) _ _ t (Nat.lt_succ_of_lt ht)]
    exact if_neg (Nat.ne_of_lt ht)

/-- The first output sample of the equalizer loop is the cascade applied to
the first input sample. -/
lemma eqFrameGo_first (c : ℕ → ℕ → ℝ) (m : ℕ) (buf : ℕ → ℝ) (sts : ℕ → ℕ → ℝ) :
    (eqFrameGo c (m + 1) 0 buf sts).1 0 =
      (eqCascadeGo c NUM_FILTERS 0 (buf 0) sts).1 := by
  simp only [eqFrameGo]
  rw [eqFrameGo_preserve c m 1 _ _ 0 (by norm_num), if_pos rfl]

/-- A run of unity-gain biquads (`b0 = 1`, other coefficients 0) passes the
sample value through unchanged. -/
lemma eqCascade_unity (c : ℕ → ℕ → ℝ) :
    ∀ r b y sts,
      (∀ b', b ≤ b' → b' < b + r →
        c b' 0 = 1 ∧ c b' 1 = 0 ∧ c b' 2 = 0 ∧ c b' 3 = 0 ∧ c b' 4 = 0) →
      (eqCascadeGo c r b y sts).1 = y := by
  intro r
  induction r with
  | zero => intro b y sts _; rfl
  | succ r ih =>
    intro b y sts h
    obtain ⟨h0, h1, h2, h3, h4⟩ := h b (le_refl b) (by omega)
    have hy : (biquadFilter y (c b) (sts b)).1 = y := by
      unfold biquadFilter
      rw [h0, h1, h2, h3, h4]
      ring
    simp only [eqCascadeGo]
    rw [hy]
    exact ih (b + 1) y _ (fun b' hb1 hb2 => h b' (by omega) (by omega))

/-- The effects configuration of the counterexample: AGC, compressor and
limiter off; equalizer on, band 0 a biquad with `b0 = b1 = 1` holding a
ringing state (`state[0] = 1`), all other bands unity-gain with cleared
state — a state reachable by feeding nonzero audio through the equalizer. -/
noncomputable def fxCE : FXState where
  agcEnabled := false
  equalizerEnabled := true
  compressorEnabled := false
  limiterEnabled := false
  agcTarget := 0.5
  agcGain := 1
  agcAttack := 0.001
  agcRelease := 0.01
  eqGains := fun _ => 1
  eqCoeffs := fun b k =>
    if b = 0 then (if k = 0 then 1 else if k = 1 then 1 else 0)
    else (if k = 0 then 1 else 0)
  eqStates := fun b k => if b = 0 ∧ k = 0 then 1 else 0

/-- When only the equalizer stage is enabled, the effects chain output is
the equalizer's. -/
lemma fxProcessFrame_eq_only (fx : FXState) (buf : ℕ → ℝ) (size : ℕ)
    (h1 : fx.agcEnabled = false) (h2 : fx.equalizerEnabled = true)
    (h3 : fx.compressorEnabled = false) (h4 : fx.limiterEnabled = false) :
    (fxProcessFrame fx buf size).2 = (eqFrameGo fx.eqCoeffs size 0 buf fx.eqStates).1 := by
  simp [fxProcessFrame, processEqualizer, h1, h2, h3, h4]

/-- On the all-zero frame the counterexample effects state rings: the first
output sample of the effects chain is 1, not 0. -/
lemma fxCE_out : (fxProcessFrame fxCE zeroFn FFT_SIZE).2 0 = 1 := by
  rw [fxProcessFrame_eq_only fxCE zeroFn FFT_SIZE rfl rfl rfl rfl]
  rw [show FFT_SIZE = 511 + 1 from rfl, eqFrameGo_first]
  have hstep : ∀ (c : ℕ → ℕ → ℝ) (r b : ℕ) (x : ℝ) (sts : ℕ → ℕ → ℝ),
      eqCascadeGo c (r + 1) b x sts =
        eqCascadeGo c r (b + 1) (biquadFilter x (c b) (sts b)).1
          (fun b' => if b' = b then (biquadFilter x (c b) (sts b)).2 else sts b') :=
    fun _ _ _ _ _ => rfl
  rw [show NUM_FILTERS = 31 + 1 from rfl, hstep]
  have hband0 : (biquadFilter (zeroFn 0) (fxCE.eqCoeffs 0) (fxCE.eqStates 0)).1 = 1 := by
    unfold biquadFilter fxCE zeroFn
    norm_num
  rw [hband0]
  refine eqCascade_unity fxCE.eqCoeffs 31 1 1 _ ?_
  intro b' hb1 _
  have hb0 : b' ≠ 0 := by omega
  unfold fxCE
  simp [hb0]

lemma int16OfReal_one_scaled : int16OfReal (1 * 32768) = 32767 := by
  have hc : constrainR (1 * 32768) (-32768) 32767 = ((32767 : ℤ) : ℝ) := by
    unfold constrainR
    rw [one_mul, if_neg (by norm_num), if_pos (by norm_num)]
    norm_num
  unfold int16OfReal
  rw [hc]
  unfold truncR
  rw [if_pos (by norm_num), Int.floor_intCast]

/-- C4 as stated: `processFrame`'s PCM output allegedly is the effects
chain (for the engine's effects state `fx`) applied to the overlap-added
reconstruction, converted to int16. -/
def effectsAppliedInsideClaim : Prop :=
  ∀ (s : APState) (fx : FXState) (input : ℕ → ℤ),
    s.bufs.inputBuffer = true → s.bufs.outputBuffer = true →
    ∀ i, i < FFT_SIZE →
      Option.map (fun p => p.2 i) (processFrame s input FFT_SIZE) =
        some (int16OfReal ((fxProcessFrame fx
          (spectralOut s.windowBuffer (noiseAfter s (inputFloat input))
            s.overlapBuffer (inputFloat input)) FFT_SIZE).2 i * 32768))

/-- Counterexample to C4: on the freshly initialized engine, the all-zero
frame and the effects state `fxCE`, `processFrame` outputs sample 0 as 0,
while the effects chain applied to the overlap-added reconstruction would
output 32767 — `AudioProcessor::processFrame` never invokes the effects
chain (the caller applies it only after the int16 conversion). -/
theorem effects_not_applied_inside : ¬effectsAppliedInsideClaim := by
  intro h
  have h0 := h initState fxCE silentFrame rfl rfl 0 (by norm_num [FFT_SIZE])
  rw [processFrame_spectral initState silentFrame rfl rfl] at h0
  rw [inputFloat_silent] at h0
  rw [show initState.overlapBuffer = zeroFn from rfl] at h0
  rw [spectralOut_zero] at h0
  rw [fxCE_out] at h0
  simp only [Option.map_some'] at h0
  rw [show zeroFn 0 = 0 from rfl, zero_mul, int16OfReal_zero, int16OfReal_one_scaled] at h0
  exact absurd (Option.some.inj h0) (by norm_num)

/-- C4 (amended): `processFrame` applies no effects chain — for every
`FFT_SIZE`-length frame its PCM output is the direct int16 conversion of
the overlap-added reconstruction (the effects chain is a separate
`AudioEffects` object that the audio task runs only after `processFrame`
has already produced int16 output). -/
theorem processFrame_output_has_no_effects (s : APState) (input : ℕ → ℤ)
    (hin : s.bufs.inputBuffer = true) (hout : s.bufs.outputBuffer = true) :
    ∀ i, i < FFT_SIZE →
      Option.map (fun p => p.2 i) (processFrame s input FFT_SIZE) =
        some (int16OfReal (spectralOut s.windowBuffer (noiseAfter s (inputFloat input))
          s.overlapBuffer (inputFloat input) i * 32768)) := by
  intro i _
  rw [processFrame_spectral s input hin hout]
  rfl

/-- Witness for the amended C4 at the freshly initialized engine, the
all-zero frame and sample 0. -/
theorem processFrame_output_has_no_effects_witness :
    Option.map (fun p => p.2 0) (processFrame initState silentFrame FFT_SIZE) =
      some (int16OfReal (spectralOut initState.windowBuffer
        (noiseAfter initState (inputFloat silentFrame))
        initState.overlapBuffer (inputFloat silentFrame) 0 * 32768)) :=
  processFrame_output_has_no_effects initState silentFrame rfl rfl 0
    (by norm_num [FFT_SIZE])

/-! ### C1 — the FFT/IFFT round-trip law fails -/

/-- The unit impulse test frame: sample 0 is 1, all others 0. -/
noncomputable def impulseFrame : ℕ → ℝ := fun i => if i = 0 then 1 else 0

/-- The bit-reversal pass at transform size 4 swaps indices 1 and 2. -/
lemma bitrevPermute_four (re im : ℕ → ℝ) :
    bitrevPermute re im 4 = (swapF re 1 2, swapF im 1 2) := rfl

lemma tw_cos_two : Real.cos (-(2 * Real.pi) / 2) = -1 := by
  rw [show -(2 * Real.pi) / 2 = -Real.pi by ring]
  rw [Real.cos_neg, Real.cos_pi]

lemma tw_sin_two : Real.sin (-(2 * Real.pi) / 2) = 0 := by
  rw [show -(2 * Real.pi) / 2 = -Real.pi by ring]
  rw [Real.sin_neg, Real.sin_pi, neg_zero]

lemma tw_cos_four : Real.cos (-(2 * Real.pi) / 4) = 0 := by
  rw [show -(2 * Real.pi) / 4 = -(Real.pi / 2) by ring]
  rw [Real.cos_neg, Real.cos_pi_div_two]

lemma tw_sin_four : Real.sin (-(2 * Real.pi) / 4) = -1 := by
  rw [show -(2 * Real.pi) / 4 = -(Real.pi / 2) by ring]
  rw [Real.sin_neg, Real.sin_pi_div_two]

lemma nband1 : (0 &&& 2 : ℕ) = 0 := by decide
lemma nbxor1 : (0 ^^^ 2 : ℕ) = 2 := by decide
lemma nband2 : (2 &&& 2 : ℕ) = 2 := by decide
lemma nbxor2 : (2 ^^^ 2 : ℕ) = 0 := by decide
lemma nband3 : (0 &&& 1 : ℕ) = 0 := by decide
lemma nbxor3 : (0 ^^^ 1 : ℕ) = 1 := by decide
lemma nband4 : (1 &&& 2 : ℕ) = 0 := by decide
lemma nbxor4 : (1 ^^^ 2 : ℕ) = 3 := by decide

set_option maxHeartbeats 2000000

/-- C1 (code-bug evidence): the source's `fft` followed by its `ifft` does
not reproduce the input.  The butterfly writes
`real[v] = (real[u] - real[v])·w` — the decimation-in-frequency form —
inside a decimation-in-time skeleton (bit-reversal first, `len`
ascending), so the computed transform is not the DFT and the inverse
relation fails.  In exact real arithmetic, already at transform size 4 the
round trip of the unit impulse returns 3/4 in sample 0 instead of 1 (the
defect is structural and independent of the transform size; at
`FFT_SIZE = 512` the same impulse round-trips to ≈ −0.0054). -/
theorem fft_roundtrip_fails_on_impulse :
    (ifft (fft impulseFrame zeroFn 4).1 (fft impulseFrame zeroFn 4).2 4).1 0 = 3 / 4 ∧
    ((3 : ℝ) / 4) ≠ 1 := by
  constructor
  · norm_num [fft, ifft, bitrevPermute_four, bflyStages, bflyBlocks, bflyInner,
      bitrevPermute, bitrevGo, bitrevInner, tw_cos_two, tw_sin_two, tw_cos_four,
      tw_sin_four, swapF, zeroFn, impulseFrame,
      nband1, nbxor1, nband2, nbxor2, nband3, nbxor3, nband4, nbxor4]
  · norm_num

end ATH
